import Mathlib

/-!
Verification of the CFPS Weather & NOTAM fetcher (src/CFPS_WEATHER_NOTAM.PY)
against its specification.

The program is shallowly embedded: Python dictionaries become association
lists, the JSON values produced by the `json` library become the inductive
type `Json` below, an HTTP response becomes a record of its success flag and
decoded body, and every operation that can raise a Python exception returns
an `Option` or `Except` value (`none`/`error` marking the raised exception).
JSON numeric literals are kept as their source lexemes (`Json.num`), since
the program never inspects a numeric value.
-/

namespace CFPS

/- JSON values as produced by the Python `json` library.  `arr` and `obj`
have mutual companion types so that decidable equality can be derived. -/
mutual

/-- A JSON value as produced by the Python `json` library. -/
inductive Json where
  | null
  | bool (b : Bool)
  | num (lexeme : String)
  | str (s : String)
  | arr (xs : JsonArr)
  | obj (kvs : JsonObj)
  deriving DecidableEq, Repr

/-- The spine of a JSON array. -/
inductive JsonArr where
  | nil
  | cons (hd : Json) (tl : JsonArr)
  deriving DecidableEq, Repr

/-- The members of a JSON object, in insertion order with unique keys. -/
inductive JsonObj where
  | nil
  | cons (key : String) (val : Json) (tl : JsonObj)
  deriving DecidableEq, Repr

end

/-- The elements of a JSON array, as a plain list. -/
def JsonArr.toList : JsonArr → List Json
  | .nil => []
  | .cons hd tl => hd :: tl.toList

/-- Python dictionary lookup on a JSON object (keys are unique). -/
def JsonObj.lookup : JsonObj → String → Option Json
  | .nil, _ => none
  | .cons k v tl, key => if k = key then some v else tl.lookup key

/-- Remove the binding for a key (used for duplicate-key handling). -/
def JsonObj.eraseKey : JsonObj → String → JsonObj
  | .nil, _ => .nil
  | .cons k v tl, key => if k = key then tl.eraseKey key else .cons k v (tl.eraseKey key)

/-- The keys of a JSON object, in insertion order. -/
def JsonObj.keyList : JsonObj → List String
  | .nil => []
  | .cons k _ tl => k :: tl.keyList

/-- Prepend a member to an already-built object with Python `dict`
semantics: a duplicate key keeps its first position but takes the value of
its last occurrence (the tail `kvs` is already deduplicated, later
occurrences winning). -/
def dictCons (k : String) (v : Json) (kvs : JsonObj) : JsonObj :=
  match kvs.lookup k with
  | some v2 => .cons k v2 (kvs.eraseKey k)
  | none => .cons k v kvs

/-- Whether a JSON value is an object (a Python `dict`). -/
def Json.isObj : Json → Bool
  | .obj _ => true
  | _ => false

/-- Whether a JSON value is an array (a Python `list`). -/
def Json.isArr : Json → Bool
  | .arr _ => true
  | _ => false

/-- The payload of a JSON string, `none` on every other value (models a
Python operation that requires a `str` and raises otherwise). -/
def Json.asStr : Json → Option String
  | .str s => some s
  | _ => none

/-- Python subscription `j[key]` with a string key: a lookup on a `dict`
(`none` models the `KeyError` when absent) and a `TypeError` (`none`) on
every non-`dict` value. -/
def pyGetItem (j : Json) (key : String) : Option Json :=
  match j with
  | .obj kvs => kvs.lookup key
  | _ => none

/-- Python iteration `for x in j`: a list yields its elements, a string
yields its characters as one-character strings, a `dict` yields its keys;
every other value raises `TypeError` (`none`). -/
def pyIter (j : Json) : Option (List Json) :=
  match j with
  | .arr xs => some xs.toList
  | .str s => some (s.data.map fun c => Json.str (String.mk [c]))
  | .obj kvs => some (kvs.keyList.map fun k => Json.str k)
  | _ => none

/-- Python `dict.get(key, dflt)`. -/
def pyDictGet (kvs : JsonObj) (key : String) (dflt : Json) : Json :=
  (kvs.lookup key).getD dflt

/-! ### A model of `json.loads`

A recursive-descent reading of the JSON grammar accepted by Python
`json.loads` with its default arguments: the four structural whitespace
characters, `null`/`true`/`false`, the extra literals `NaN`, `Infinity` and
`-Infinity`, numbers (kept as lexemes), strings with the standard escapes
including `\uXXXX` and surrogate pairs, arrays and objects.  `none` models
a raised `JSONDecodeError`. -/

/-- The whitespace characters of the JSON grammar. -/
def isJsonWs (c : Char) : Bool :=
  c = ' ' || c = '\t' || c = '\n' || c = '\r'

/-- Drop leading JSON whitespace. -/
def skipWs : List Char → List Char
  | [] => []
  | c :: rest => if isJsonWs c then skipWs rest else c :: rest

/-- The value of a hexadecimal digit. -/
def hexVal (c : Char) : Option Nat :=
  if c.isDigit then some (c.toNat - 48)
  else if 'a' ≤ c ∧ c ≤ 'f' then some (c.toNat - 87)
  else if 'A' ≤ c ∧ c ≤ 'F' then some (c.toNat - 55)
  else none

/-- The value of a four-digit hexadecimal escape. -/
def hex4 (a b c d : Char) : Option Nat := do
  let x1 ← hexVal a
  let x2 ← hexVal b
  let x3 ← hexVal c
  let x4 ← hexVal d
  pure (((x1 * 16 + x2) * 16 + x3) * 16 + x4)

/-- Single-character string escapes (`\uXXXX` is handled separately). -/
def escChar : Char → Option Char
  | '"' => some '"'
  | '\\' => some '\\'
  | '/' => some '/'
  | 'b' => some (Char.ofNat 8)
  | 'f' => some (Char.ofNat 12)
  | 'n' => some '\n'
  | 'r' => some '\r'
  | 't' => some '\t'
  | _ => none

/-- Body of a JSON string literal, after the opening quote: the decoded
characters and the input following the closing quote.  Unescaped control
characters and unknown escapes are rejected, as `json.loads` does in strict
mode.  A `\uXXXX` escape in the surrogate range combines with a following
low-surrogate escape; a lone surrogate, representable in Python but not as
a Lean `Char`, degrades to `Char.ofNat`.  The fuel bounds recursion depth;
every step consumes at least one character, so callers pass `length + 1`
and the bound is never hit. -/
def parseStringBody : Nat → List Char → Option (List Char × List Char)
  | 0, _ => none
  | _, [] => none
  | _ + 1, '"' :: rest => some ([], rest)
  | fuel + 1, '\\' :: 'u' :: h1 :: h2 :: h3 :: h4 :: rest =>
    match hex4 h1 h2 h3 h4 with
    | none => none
    | some n =>
      if 0xD800 ≤ n ∧ n ≤ 0xDBFF then
        match rest with
        | '\\' :: 'u' :: g1 :: g2 :: g3 :: g4 :: rest2 =>
          (match hex4 g1 g2 g3 g4 with
           | none => none
           | some m =>
             if 0xDC00 ≤ m ∧ m ≤ 0xDFFF then
               match parseStringBody fuel rest2 with
               | none => none
               | some (cs, r) =>
                 some (Char.ofNat (0x10000 + (n - 0xD800) * 0x400 + (m - 0xDC00)) :: cs, r)
             else
               match parseStringBody fuel ('\\' :: 'u' :: g1 :: g2 :: g3 :: g4 :: rest2) with
               | none => none
               | some (cs, r) => some (Char.ofNat n :: cs, r))
        | _ =>
          match parseStringBody fuel rest with
          | none => none
          | some (cs, r) => some (Char.ofNat n :: cs, r)
      else
        match parseStringBody fuel rest with
        | none => none
        | some (cs, r) => some (Char.ofNat n :: cs, r)
  | fuel + 1, '\\' :: e :: rest =>
    match escChar e with
    | none => none
    | some c =>
      match parseStringBody fuel rest with
      | none => none
      | some (cs, r) => some (c :: cs, r)
  | fuel + 1, c :: rest =>
    if c.toNat < 32 then none
    else
      match parseStringBody fuel rest with
      | none => none
      | some (cs, r) => some (c :: cs, r)

/-- Longest prefix of decimal digits. -/
def takeDigits : List Char → List Char × List Char
  | [] => ([], [])
  | c :: rest =>
    if c.isDigit then
      let (ds, r) := takeDigits rest
      (c :: ds, r)
    else ([], c :: rest)

/-- A JSON number literal per the grammar `json.loads` accepts:
`-?(0|[1-9][0-9]*)(.[0-9]+)?([eE][+-]?[0-9]+)?`, returned as its lexeme. -/
def parseNumber (cs : List Char) : Option (String × List Char) := do
  let (sign, cs1) :=
    match cs with
    | '-' :: r => (['-'], r)
    | _ => ([], cs)
  let (ipart, cs2) ←
    match cs1 with
    | '0' :: r => some (['0'], r)
    | c :: r =>
      if c.isDigit then
        let (ds, r2) := takeDigits r
        some (c :: ds, r2)
      else none
    | [] => none
  let (fpart, cs3) ←
    match cs2 with
    | '.' :: r =>
      let (ds, r2) := takeDigits r
      if ds = [] then none else some ('.' :: ds, r2)
    | _ => some ([], cs2)
  let (epart, cs4) ←
    match cs3 with
    | e :: r =>
      if e = 'e' ∨ e = 'E' then
        let (esign, r1) :=
          match r with
          | '+' :: r2 => (['+'], r2)
          | '-' :: r2 => (['-'], r2)
          | _ => ([], r)
        let (ds, r2) := takeDigits r1
        if ds = [] then none else some (e :: esign ++ ds, r2)
      else some ([], cs3)
    | [] => some ([], cs3)
  pure (String.mk (sign ++ ipart ++ fpart ++ epart), cs4)

mutual

/-- A JSON value and the remaining input; fuel bounds the recursion depth. -/
def parseValue : Nat → List Char → Option (Json × List Char)
  | 0, _ => none
  | fuel + 1, cs =>
    match skipWs cs with
    | 'n' :: 'u' :: 'l' :: 'l' :: rest => some (.null, rest)
    | 't' :: 'r' :: 'u' :: 'e' :: rest => some (.bool true, rest)
    | 'f' :: 'a' :: 'l' :: 's' :: 'e' :: rest => some (.bool false, rest)
    | 'N' :: 'a' :: 'N' :: rest => some (.num "NaN", rest)
    | 'I' :: 'n' :: 'f' :: 'i' :: 'n' :: 'i' :: 't' :: 'y' :: rest =>
      some (.num "Infinity", rest)
    | '-' :: 'I' :: 'n' :: 'f' :: 'i' :: 'n' :: 'i' :: 't' :: 'y' :: rest =>
      some (.num "-Infinity", rest)
    | '"' :: rest =>
      match parseStringBody (rest.length + 1) rest with
      | none => none
      | some (cs2, r) => some (.str (String.mk cs2), r)
    | '[' :: rest =>
      (match skipWs rest with
       | ']' :: r => some (.arr .nil, r)
       | cs2 =>
         match parseElems fuel cs2 with
         | none => none
         | some (xs, r) => some (.arr xs, r))
    | '{' :: rest =>
      (match skipWs rest with
       | '}' :: r => some (.obj .nil, r)
       | cs2 =>
         match parseMembers fuel cs2 with
         | none => none
         | some (kvs, r) => some (.obj kvs, r))
    | cs2 =>
      match parseNumber cs2 with
      | none => none
      | some (s, r) => some (.num s, r)

/-- One or more comma-separated array elements followed by `]`. -/
def parseElems : Nat → List Char → Option (JsonArr × List Char)
  | 0, _ => none
  | fuel + 1, cs =>
    match parseValue fuel cs with
    | none => none
    | some (v, r) =>
      match skipWs r with
      | ',' :: r2 =>
        (match parseElems fuel r2 with
         | none => none
         | some (xs, r3) => some (.cons v xs, r3))
      | ']' :: r2 => some (.cons v .nil, r2)
      | _ => none

/-- One or more comma-separated object members followed by `}`. -/
def parseMembers : Nat → List Char → Option (JsonObj × List Char)
  | 0, _ => none
  | fuel + 1, cs =>
    match skipWs cs with
    | '"' :: r =>
      (match parseStringBody (r.length + 1) r with
       | none => none
       | some (kcs, r1) =>
         match skipWs r1 with
         | ':' :: r2 =>
           (match parseValue fuel r2 with
            | none => none
            | some (v, r3) =>
              match skipWs r3 with
              | ',' :: r4 =>
                (match parseMembers fuel r4 with
                 | none => none
                 | some (kvs, r5) => some (dictCons (String.mk kcs) v kvs, r5))
              | '}' :: r4 => some (.cons (String.mk kcs) v .nil, r4)
              | _ => none)
         | _ => none)
    | _ => none

end

/-- Model of Python `json.loads`: decode one JSON value, allowing trailing
whitespace only; `none` models a raised `JSONDecodeError`.  The fuel
`2 * length + 4` exceeds the recursion depth any input of that length can
demand (each recursive level consumes at least one character). -/
def json_loads (s : String) : Option Json :=
  match parseValue (2 * s.length + 4) s.data with
  | some (j, rest) => if skipWs rest = [] then some j else none
  | none => none

/-! ### Python dictionary-key semantics

The bucketing loop of `get_cfps_data` uses the `type` value as a Python
`dict` key.  Python keys must be hashable — a list or dict value raises
`TypeError` — and compare by value equality, which identifies `True`, `1`
and `1.0` (bool is an int subclass, and int/float compare numerically),
while `NaN` is unequal even to itself, so every freshly decoded `NaN` key
opens its own entry.  The functions below canonicalize a JSON value to its
Python key identity.  Finite decimal literals are interpreted exactly; the
double-precision rounding and overflow of Python floats are deliberately
not modelled (floating point is out of scope), so numeric equality is
captured at the level of the decimal values the literals denote. -/

/-- The numeric value of a Python number key: a finite value in canonical
scientific form `m * 10 ^ e` with `m` not divisible by ten (and `0`
represented as `fin 0 0`), or one of the three special float values. -/
inductive PyNum where
  | fin (m : Int) (e : Int)
  | inf
  | negInf
  | nan
  deriving DecidableEq, Repr

/-- Remove factors of ten, fuel-structurally (each step divides by ten, so
fuel `m` is always enough): the reduced number and how many were removed. -/
def stripZerosGo : Nat → Nat → Nat × Nat
  | 0, m => (m, 0)
  | fuel + 1, m =>
    if m ≠ 0 ∧ m % 10 = 0 then
      let p := stripZerosGo fuel (m / 10)
      (p.1, p.2 + 1)
    else (m, 0)

/-- Remove factors of ten: the reduced number and how many were removed. -/
def stripZeros (m : Nat) : Nat × Nat :=
  stripZerosGo m m

/-- Canonical form of the finite value `m * 10 ^ e`. -/
def canonNum (m e : Int) : PyNum :=
  if m = 0 then .fin 0 0
  else
    let p := stripZeros m.natAbs
    .fin (if m < 0 then -(Int.ofNat p.1) else Int.ofNat p.1) (e + Int.ofNat p.2)

/-- The natural number named by a list of decimal digits. -/
def digitsToNat (ds : List Char) : Nat :=
  ds.foldl (fun n c => n * 10 + (c.toNat - 48)) 0

/-- The numeric value denoted by a number lexeme produced by the decoder:
`NaN`, `Infinity`, `-Infinity`, or a decimal literal with optional sign,
fraction and exponent. -/
def pyNumOfLexeme (lex : String) : PyNum :=
  if lex = "NaN" then .nan
  else if lex = "Infinity" then .inf
  else if lex = "-Infinity" then .negInf
  else
    let cs := lex.data
    let (neg, cs1) :=
      match cs with
      | '-' :: r => (true, r)
      | _ => (false, cs)
    let (ids, cs2) := takeDigits cs1
    let (fds, cs3) :=
      match cs2 with
      | '.' :: r => takeDigits r
      | _ => ([], cs2)
    let ex : Int :=
      match cs3 with
      | 'e' :: '+' :: r => Int.ofNat (digitsToNat (takeDigits r).1)
      | 'e' :: '-' :: r => -Int.ofNat (digitsToNat (takeDigits r).1)
      | 'e' :: r => Int.ofNat (digitsToNat (takeDigits r).1)
      | 'E' :: '+' :: r => Int.ofNat (digitsToNat (takeDigits r).1)
      | 'E' :: '-' :: r => -Int.ofNat (digitsToNat (takeDigits r).1)
      | 'E' :: r => Int.ofNat (digitsToNat (takeDigits r).1)
      | _ => 0
    let mAbs := digitsToNat (ids ++ fds)
    let m : Int := if neg then -(Int.ofNat mAbs) else Int.ofNat mAbs
    canonNum m (ex - Int.ofNat fds.length)

/-- The key identity classes of hashable Python values. -/
inductive PyKey where
  | noneKey
  | numKey (x : PyNum)
  | strKey (s : String)
  deriving DecidableEq, Repr

/-- The Python key identity of a JSON value: `None` is its own class,
booleans and numbers share the numeric classes (`True` is `1`), strings
compare as strings.  `NaN` gets no identity — it is unequal even to
itself — and neither do the unhashable lists and objects (which never
reach a key comparison: the hashability check rejects them first). -/
def pyKeyCanon : Json → Option PyKey
  | .null => some .noneKey
  | .bool b => some (.numKey (canonNum (cond b 1 0) 0))
  | .num lex =>
    match pyNumOfLexeme lex with
    | .nan => none
    | .fin m e => some (.numKey (.fin m e))
    | .inf => some (.numKey .inf)
    | .negInf => some (.numKey .negInf)
  | .str s => some (.strKey s)
  | .arr _ => none
  | .obj _ => none

/-- Python `==` as used on dictionary keys. -/
def pyKeyEq (a b : Json) : Bool :=
  match pyKeyCanon a, pyKeyCanon b with
  | some x, some y => decide (x = y)
  | _, _ => false

/-- Whether a JSON value may be a Python dictionary key at all; using a
list or dict raises `TypeError: unhashable type`. -/
def Json.isHashable : Json → Bool
  | .arr _ => false
  | .obj _ => false
  | _ => true

/-- Whether a record carries a `type` entry usable as a dictionary key. -/
def hashable_type (it : Json) : Bool :=
  match pyGetItem it "type" with
  | some k => k.isHashable
  | none => false

/-- Whether a record's `type` value is Python-equal to the key `k`. -/
def typed_as (k it : Json) : Bool :=
  match pyGetItem it "type" with
  | some kt => pyKeyEq kt k
  | none => false

/-- The bucket a record lands in carries a key that is Python-equal to the
record's `type` value, or (for the self-unequal `NaN`) the value itself. -/
def key_matches (kb k : Json) : Bool :=
  pyKeyEq kb k || decide (kb = k)

/-! ### `get_cfps_data` (source lines 13 to 41)

The `requests` library is abstracted by an `HttpResponse` record: `ok` is
the outcome of `raise_for_status` and `body` the outcome of
`response.json()` (`none` for a `JSONDecodeError`).  The network itself is
a parameter `responses : String → HttpResponse` mapping each ICAO code to
the response its request receives. -/

/-- A query parameter value as stored in the `params` dictionary of
`get_cfps_data`: either a single string or a list of strings. -/
inductive ParamValue where
  | single (v : String)
  | multi (vs : List String)
  deriving DecidableEq, Repr

/-- The eight fixed report categories requested (source line 17). -/
def cfps_categories : List String :=
  ["sigmet", "airmet", "notam", "metar", "taf", "pirep", "upperwind", "space_weather"]

/-- The `params` dictionary of `get_cfps_data` (source lines 15 to 20). -/
def cfps_params (icao : String) : List (String × ParamValue) :=
  [("site", .single icao),
   ("alpha", .multi cfps_categories),
   ("notam_choice", .single "default"),
   ("_", .single "1756244240291")]

/-- The query-parameter flattening loop (source lines 23 to 29): each
list-valued entry contributes one pair per element, every other entry one
pair. -/
def build_query_params (ps : List (String × ParamValue)) : List (String × String) :=
  ps.foldl
    (fun acc kv =>
      match kv.2 with
      | .multi vs => acc ++ vs.map fun v => (kv.1, v)
      | .single v => acc ++ [(kv.1, v)])
    []

/-- Specification-level reading of the encoding of one parameter, used to
characterize `build_query_params`. -/
def expand_param (kv : String × ParamValue) : List (String × String) :=
  match kv.2 with
  | .multi vs => vs.map fun v => (kv.1, v)
  | .single v => [(kv.1, v)]

/-- An HTTP response, as far as the program observes it: whether
`raise_for_status` passes, and the JSON decoding of the body. -/
structure HttpResponse where
  ok : Bool
  body : Option Json
  deriving Repr

/-- The two failure classes of `get_cfps_data` named by the specification:
a non-success HTTP status, or a malformed/unexpected body. -/
inductive CfpsError where
  | requestError
  | parseError
  deriving DecidableEq, Repr

/-- The mapping built by `get_cfps_data`: a Python `dict` from the `type`
value of a record to the list of records carrying it, in insertion order. -/
abbrev Organized := List (Json × List Json)

/-- `organized[typ].append(item)`, creating the bucket at the end of the
dictionary on first use (source lines 38 to 40).  Keys compare with Python
equality `pyKeyEq`, so `True`, `1` and `1.0` share one bucket, while a
`NaN` key, unequal even to itself, always opens a fresh bucket. -/
def insBucket : Organized → Json → Json → Organized
  | [], k, item => [(k, [item])]
  | (k2, b) :: rest, k, item =>
    if pyKeyEq k2 k then (k2, b ++ [item]) :: rest
    else (k2, b) :: insBucket rest k item

/-- The bucketing loop of `get_cfps_data` (source lines 36 to 40), folding
`insBucket` over the records; `none` models the exception raised when an
element has no `type` entry (`KeyError`) or when its `type` value is
unhashable (`TypeError` from `typ not in organized`). -/
def organizeGo : Organized → List Json → Option Organized
  | acc, [] => some acc
  | acc, item :: rest =>
    match pyGetItem item "type" with
    | none => none
    | some k =>
      if k.isHashable then organizeGo (insBucket acc k item) rest
      else none

/-- Bucketing the records of the `data` list by their `type` field
(source lines 35 to 41). -/
def organize (items : List Json) : Option Organized :=
  organizeGo [] items

/-- Python dictionary lookup on the organized mapping with a default of
`[]`, as in `data.get("metar", [])` (source lines 81 to 84); keys compare
with Python equality. -/
def bucketOf (org : Organized) (k : Json) : List Json :=
  match org with
  | [] => []
  | (k2, b) :: rest => if pyKeyEq k2 k then b else bucketOf rest k

/-- `get_cfps_data` given the response its request receives (source lines
31 to 41): `raise_for_status`, then `response.json()`, then `data["data"]`,
then the bucketing loop.  Every raised exception becomes an `error`. -/
def get_cfps_data (resp : HttpResponse) : Except CfpsError Organized :=
  if resp.ok then
    match resp.body with
    | none => .error .parseError
    | some body =>
      match pyGetItem body "data" with
      | none => .error .parseError
      | some d =>
        match pyIter d with
        | none => .error .parseError
        | some items =>
          match organize items with
          | none => .error .parseError
          | some org => .ok org
  else .error .requestError

/-! ### Per-code text extraction and the batch loop (source lines 74 to 99) -/

/-- `m["text"]` as a string: the record must be a `dict` with a `text`
entry holding a string, or the comprehension/`join` raises (`none`). -/
def text_of_record (m : Json) : Option String :=
  (pyGetItem m "text").bind Json.asStr

/-- `"\n".join([m["text"] for m in items])` (source lines 81 and 82). -/
def join_newline (items : List Json) : Option String :=
  (items.mapM text_of_record).map (String.intercalate "\n")

/-- Display text of one NOTAM record (source lines 85 to 89).  `n["text"]`
is decoded as JSON; on an object, `notam_json.get("raw", "")` is appended
(a non-string `raw` value later makes `join` raise, hence `asStr`); a
decode failure or a `.get` on a non-`dict` is swallowed by the bare
`except`, which appends the original text.  A record without a string
`text` entry makes the iteration itself raise (`none`). -/
def notamDisplay (n : Json) : Option String :=
  match pyGetItem n "text" with
  | none => none
  | some t =>
    match t with
    | .str s =>
      match json_loads s with
      | some (.obj kvs) => Json.asStr (pyDictGet kvs "raw" (.str ""))
      | some _ => some s
      | none => some s
    | _ => none

/-- `notam_text` for the bucket of NOTAM records, joined with a blank line
(source line 90). -/
def notam_join (items : List Json) : Option String :=
  (items.mapM notamDisplay).map (String.intercalate "\n\n")

/-- One row of the results table (source lines 92 to 97). -/
structure ResultRow where
  ICAO : String
  METAR : String
  TAF : String
  NOTAMs : String
  deriving DecidableEq, Repr

/-- The extraction part of the loop body (source lines 81 to 97): METAR and
TAF text joined by newline, NOTAM display text joined by a blank line. -/
def extract_row (icao : String) (data : Organized) : Option ResultRow := do
  let metar ← join_newline (bucketOf data (.str "metar"))
  let taf ← join_newline (bucketOf data (.str "taf"))
  let notam_text ← notam_join (bucketOf data (.str "notam"))
  pure ⟨icao, metar, taf, notam_text⟩

/-- The body of the `try` block for one code (source lines 79 to 97): fetch
then extract; any exception is caught at source line 98 and reported by the
`st.warning` call of line 99, whose message names the failing code (the
embedded exception text is abstracted away). -/
def process_one (responses : String → HttpResponse) (icao : String) :
    Except String ResultRow :=
  match get_cfps_data (responses icao) with
  | .error _ => .error ("Failed to fetch data for " ++ icao)
  | .ok data =>
    match extract_row icao data with
    | some row => .ok row
    | none => .error ("Failed to fetch data for " ++ icao)

/-- The per-ICAO loop (source lines 76 to 99): rows are appended to
`results`, warnings are issued in order; a failed code contributes a
warning and no row. -/
def processBatch (responses : String → HttpResponse) (codes : List String) :
    List ResultRow × List String :=
  codes.foldl
    (fun acc icao =>
      match process_one responses icao with
      | .ok row => (acc.1 ++ [row], acc.2)
      | .error w => (acc.1, acc.2 ++ [w]))
    ([], [])

/-- Specification-level reading of one loop iteration: the row a code
contributes when its processing succeeds. -/
def success_row (responses : String → HttpResponse) (icao : String) :
    Option ResultRow :=
  match process_one responses icao with
  | .ok row => some row
  | .error _ => none

/-- Specification-level reading of one loop iteration: the warning a code
contributes when its processing fails. -/
def failure_warning (responses : String → HttpResponse) (icao : String) :
    Option String :=
  match process_one responses icao with
  | .ok _ => none
  | .error w => some w

/-! ### Building the list of ICAO codes (source lines 46 to 72)

The text box yields a raw string; the optional upload yields a table,
modelled as an association list from column name to cells, a cell being
`none` where pandas sees a missing value (`dropna` removes those).  The
`st.error` messages are collected; quotes inside the source message text
are elided. -/

/-- A parsed spreadsheet: column name to column cells. -/
abbrev DataTable := List (String × List (Option String))

/-- Python `str.upper`, character by character. -/
def py_upper (s : String) : String :=
  String.mk (s.data.map Char.toUpper)

/-- Whether Python `str.strip` removes the character (ASCII whitespace). -/
def isPyStripWs (c : Char) : Bool :=
  c = ' ' || c = '\t' || c = '\n' || c = '\r' || c = Char.ofNat 11 || c = Char.ofNat 12

/-- Drop leading stripped characters. -/
def dropLeadingWs : List Char → List Char
  | [] => []
  | c :: rest => if isPyStripWs c then dropLeadingWs rest else c :: rest

/-- Python `str.strip`. -/
def py_strip (s : String) : String :=
  String.mk ((dropLeadingWs (dropLeadingWs s.data.reverse).reverse))

/-- Lines 46 to 72: the single-code input is upper-cased and stripped and,
when non-empty, opens the list; a present upload contributes the
upper-cased non-missing cells of its `ICAO` column, or one error message
when that column is missing.  The result is the processing list together
with the reported errors. -/
def build_icao_list (icao_raw : String) (upload : Option DataTable) :
    List String × List String :=
  let icao_input := py_strip (py_upper icao_raw)
  let base := if icao_input = "" then [] else [icao_input]
  match upload with
  | none => (base, [])
  | some df =>
    match df.lookup "ICAO" with
    | some col => (base ++ (col.filterMap id).map py_upper, [])
    | none => (base, ["Uploaded file must have a column named ICAO"])

/-! ## Auxiliary lemmas -/

theorem pyKeyEq_eq_canon (a b : Json) :
    pyKeyEq a b = true ↔ ∃ x, pyKeyCanon a = some x ∧ pyKeyCanon b = some x := by
  unfold pyKeyEq
  cases pyKeyCanon a <;> cases pyKeyCanon b <;> simp [eq_comm]

theorem pyKeyCanon_str (kb : Json) (s : String)
    (h : pyKeyCanon kb = some (.strKey s)) : kb = .str s := by
  cases kb with
  | null => simp [pyKeyCanon] at h
  | bool b => simp [pyKeyCanon] at h
  | num lex =>
    cases hx : pyNumOfLexeme lex <;> simp [pyKeyCanon, hx] at h
  | str s2 => simp [pyKeyCanon] at h; rw [h]
  | arr xs => simp [pyKeyCanon] at h
  | obj kvs => simp [pyKeyCanon] at h

theorem bucketOf_insBucket (org : Organized) (k item k2 : Json) :
    bucketOf (insBucket org k item) k2 =
      if pyKeyEq k k2 then bucketOf org k2 ++ [item] else bucketOf org k2 := by
  induction org with
  | nil =>
    cases h : pyKeyEq k k2 <;> simp [insBucket, bucketOf, h]
  | cons hd tl ih =>
    obtain ⟨k3, b⟩ := hd
    cases h1 : pyKeyEq k3 k with
    | true =>
      have hcong : pyKeyEq k3 k2 = pyKeyEq k k2 := by
        obtain ⟨x, hx3, hxk⟩ := (pyKeyEq_eq_canon k3 k).mp h1
        unfold pyKeyEq
        rw [hx3, hxk]
      cases h2 : pyKeyEq k k2 <;>
        simp [insBucket, bucketOf, h1, hcong.trans h2, h2]
    | false =>
      cases h2 : pyKeyEq k3 k2 with
      | true =>
        have h3 : pyKeyEq k k2 = false := by
          cases h4 : pyKeyEq k k2
          · rfl
          · obtain ⟨x, hx3, hx2⟩ := (pyKeyEq_eq_canon k3 k2).mp h2
            obtain ⟨y, hyk, hy2⟩ := (pyKeyEq_eq_canon k k2).mp h4
            have hxy : x = y := Option.some.inj (hx2.symm.trans hy2)
            have h5 : pyKeyEq k3 k = true :=
              (pyKeyEq_eq_canon k3 k).mpr ⟨x, hx3, hxy ▸ hyk⟩
            rw [h1] at h5
            exact absurd h5 (by simp)
        simp [insBucket, bucketOf, h1, h2, h3]
      | false =>
        simp [insBucket, bucketOf, h1, h2, ih]

theorem flatten_insBucket_perm (org : Organized) (k item : Json) :
    ((insBucket org k item).map Prod.snd).flatten.Perm
      (item :: (org.map Prod.snd).flatten) := by
  induction org with
  | nil => simp [insBucket]
  | cons hd tl ih =>
    obtain ⟨k3, b⟩ := hd
    cases h : pyKeyEq k3 k with
    | true =>
      simp only [insBucket, h, if_true, List.map_cons, List.flatten_cons]
      rw [List.append_assoc]
      exact List.perm_middle
    | false =>
      simp only [insBucket, h, Bool.false_eq_true, if_false, List.map_cons,
        List.flatten_cons]
      exact ((ih.append_left b).trans List.perm_middle)

theorem insBucket_mem_self (org : Organized) (k item : Json) :
    ∃ kb b, (kb, b) ∈ insBucket org k item ∧ key_matches kb k = true ∧
      item ∈ b := by
  induction org with
  | nil =>
    exact ⟨k, [item], by simp [insBucket], by simp [key_matches], by simp⟩
  | cons hd tl ih =>
    obtain ⟨k3, b3⟩ := hd
    cases h : pyKeyEq k3 k with
    | true =>
      exact ⟨k3, b3 ++ [item], by simp [insBucket, h],
        by simp [key_matches, h], by simp⟩
    | false =>
      obtain ⟨kb, b, hmem, hkm, hib⟩ := ih
      exact ⟨kb, b, by simp [insBucket, h, hmem], hkm, hib⟩

theorem insBucket_mem_mono (org : Organized) (k item kb : Json) (b : List Json)
    (hmem : (kb, b) ∈ org) :
    ∃ b2, (kb, b2) ∈ insBucket org k item ∧ ∀ x ∈ b, x ∈ b2 := by
  induction org with
  | nil => simp at hmem
  | cons hd tl ih =>
    obtain ⟨k3, b3⟩ := hd
    rcases List.mem_cons.mp hmem with heq | htl
    · injection heq with h1 h2
      subst h2
      cases h : pyKeyEq k3 k with
      | true =>
        refine ⟨b ++ [item], ?_, fun x hx => by simp [hx]⟩
        rw [h1]
        simp [insBucket, h]
      | false =>
        refine ⟨b, ?_, fun x hx => hx⟩
        rw [h1]
        simp [insBucket, h]
    · cases h : pyKeyEq k3 k with
      | true =>
        exact ⟨b, by simp [insBucket, h, htl], fun x hx => hx⟩
      | false =>
        obtain ⟨b2, hb2, hsub⟩ := ih htl
        exact ⟨b2, by simp [insBucket, h, hb2], hsub⟩

theorem organizeGo_mem_mono : ∀ (items : List Json) (acc org : Organized),
    organizeGo acc items = some org → ∀ kb b, (kb, b) ∈ acc →
      ∃ b2, (kb, b2) ∈ org ∧ ∀ x ∈ b, x ∈ b2 := by
  intro items
  induction items with
  | nil =>
    intro acc org h kb b hm
    simp only [organizeGo, Option.some.injEq] at h
    subst h
    exact ⟨b, hm, fun x hx => hx⟩
  | cons it rest ih =>
    intro acc org h kb b hm
    cases htyp : pyGetItem it "type" with
    | none =>
      have hred : organizeGo acc (it :: rest) = none := by simp [organizeGo, htyp]
      rw [hred] at h
      exact absurd h (by simp)
    | some kt =>
      cases hhash : kt.isHashable with
      | false =>
        have hred : organizeGo acc (it :: rest) = none := by
          simp [organizeGo, htyp, hhash]
        rw [hred] at h
        exact absurd h (by simp)
      | true =>
        have hred : organizeGo acc (it :: rest) =
            organizeGo (insBucket acc kt it) rest := by
          simp [organizeGo, htyp, hhash]
        rw [hred] at h
        obtain ⟨b2, hb2, hsub⟩ := insBucket_mem_mono acc kt it kb b hm
        obtain ⟨b3, hb3, hsub2⟩ := ih (insBucket acc kt it) org h kb b2 hb2
        exact ⟨b3, hb3, fun x hx => hsub2 x (hsub x hx)⟩

theorem organizeGo_mem_item : ∀ (items : List Json) (acc org : Organized),
    organizeGo acc items = some org → ∀ it ∈ items,
      ∃ k, pyGetItem it "type" = some k ∧
        ∃ kb b, (kb, b) ∈ org ∧ key_matches kb k = true ∧ it ∈ b := by
  intro items
  induction items with
  | nil => intro acc org h it hit; simp at hit
  | cons it rest ih =>
    intro acc org h it2 hit2
    cases htyp : pyGetItem it "type" with
    | none =>
      have hred : organizeGo acc (it :: rest) = none := by simp [organizeGo, htyp]
      rw [hred] at h
      exact absurd h (by simp)
    | some kt =>
      cases hhash : kt.isHashable with
      | false =>
        have hred : organizeGo acc (it :: rest) = none := by
          simp [organizeGo, htyp, hhash]
        rw [hred] at h
        exact absurd h (by simp)
      | true =>
        have hred : organizeGo acc (it :: rest) =
            organizeGo (insBucket acc kt it) rest := by
          simp [organizeGo, htyp, hhash]
        rw [hred] at h
        rcases List.mem_cons.mp hit2 with heq | htl
        · subst heq
          obtain ⟨kb, b, hmem, hkm, hib⟩ := insBucket_mem_self acc kt it2
          obtain ⟨b2, hb2, hsub⟩ :=
            organizeGo_mem_mono rest (insBucket acc kt it2) org h kb b hmem
          exact ⟨kt, htyp, kb, b2, hb2, hkm, hsub it2 hib⟩
        · exact ih (insBucket acc kt it) org h it2 htl

theorem organizeGo_bucket : ∀ (items : List Json) (acc org : Organized),
    organizeGo acc items = some org → ∀ k : Json,
      bucketOf org k = bucketOf acc k ++ items.filter (typed_as k) := by
  intro items
  induction items with
  | nil =>
    intro acc org h k
    simp only [organizeGo, Option.some.injEq] at h
    subst h
    simp
  | cons it rest ih =>
    intro acc org h k
    cases htyp : pyGetItem it "type" with
    | none =>
      have hred : organizeGo acc (it :: rest) = none := by simp [organizeGo, htyp]
      rw [hred] at h
      exact absurd h (by simp)
    | some kt =>
      cases hhash : kt.isHashable with
      | false =>
        have hred : organizeGo acc (it :: rest) = none := by
          simp [organizeGo, htyp, hhash]
        rw [hred] at h
        exact absurd h (by simp)
      | true =>
        have hred : organizeGo acc (it :: rest) =
            organizeGo (insBucket acc kt it) rest := by
          simp [organizeGo, htyp, hhash]
        rw [hred] at h
        have hb := ih (insBucket acc kt it) org h k
        rw [hb, bucketOf_insBucket, List.filter_cons]
        have hta : typed_as k it = pyKeyEq kt k := by simp [typed_as, htyp]
        cases hk : pyKeyEq kt k <;>
          simp [hta, hk, List.append_assoc]

theorem organizeGo_perm : ∀ (items : List Json) (acc org : Organized),
    organizeGo acc items = some org →
      ((org.map Prod.snd).flatten).Perm ((acc.map Prod.snd).flatten ++ items) := by
  intro items
  induction items with
  | nil =>
    intro acc org h
    simp only [organizeGo, Option.some.injEq] at h
    subst h
    simp
  | cons it rest ih =>
    intro acc org h
    cases htyp : pyGetItem it "type" with
    | none =>
      have hred : organizeGo acc (it :: rest) = none := by simp [organizeGo, htyp]
      rw [hred] at h
      exact absurd h (by simp)
    | some kt =>
      cases hhash : kt.isHashable with
      | false =>
        have hred : organizeGo acc (it :: rest) = none := by
          simp [organizeGo, htyp, hhash]
        rw [hred] at h
        exact absurd h (by simp)
      | true =>
        have hred : organizeGo acc (it :: rest) =
            organizeGo (insBucket acc kt it) rest := by
          simp [organizeGo, htyp, hhash]
        rw [hred] at h
        have hperm := ih (insBucket acc kt it) org h
        have hins := flatten_insBucket_perm acc kt it
        have h2 : ((org.map Prod.snd).flatten).Perm
            ((it :: (acc.map Prod.snd).flatten) ++ rest) :=
          hperm.trans (hins.append_right rest)
        exact h2.trans (List.cons_append it _ rest ▸ List.perm_middle.symm)

theorem organizeGo_none_iff : ∀ (items : List Json) (acc : Organized),
    organizeGo acc items = none ↔ ∃ it ∈ items, hashable_type it = false := by
  intro items
  induction items with
  | nil => intro acc; simp [organizeGo]
  | cons it rest ih =>
    intro acc
    cases htyp : pyGetItem it "type" with
    | none =>
      have hred : organizeGo acc (it :: rest) = none := by simp [organizeGo, htyp]
      rw [hred]
      constructor
      · intro _
        exact ⟨it, by simp, by simp [hashable_type, htyp]⟩
      · intro _
        rfl
    | some kt =>
      cases hhash : kt.isHashable with
      | false =>
        have hred : organizeGo acc (it :: rest) = none := by
          simp [organizeGo, htyp, hhash]
        rw [hred]
        constructor
        · intro _
          exact ⟨it, by simp, by simp [hashable_type, htyp, hhash]⟩
        · intro _
          rfl
      | true =>
        have hred : organizeGo acc (it :: rest) =
            organizeGo (insBucket acc kt it) rest := by
          simp [organizeGo, htyp, hhash]
        rw [hred, ih]
        simp [hashable_type, htyp, hhash]

theorem bucketOf_str_eq_nil_of_not_mem (org : Organized) (s : String)
    (h : Json.str s ∉ org.map Prod.fst) : bucketOf org (.str s) = [] := by
  induction org with
  | nil => rfl
  | cons hd tl ih =>
    obtain ⟨k2, b⟩ := hd
    simp only [List.map_cons, List.mem_cons] at h
    push_neg at h
    have hne : pyKeyEq k2 (.str s) = false := by
      cases hk : pyKeyEq k2 (.str s)
      · rfl
      · obtain ⟨x, hx2, hxs⟩ := (pyKeyEq_eq_canon k2 (.str s)).mp hk
        have hxk : x = .strKey s := by
          simp [pyKeyCanon] at hxs
          exact hxs.symm
        have hk2 : k2 = .str s := pyKeyCanon_str k2 s (hxk ▸ hx2)
        exact absurd hk2.symm h.1
    simp [bucketOf, hne, ih h.2]

/-! ## Claims -/

/-- C4.  The query-parameter list built by `get_cfps_data` encodes every
list-valued parameter as repeated key-value pairs, one per element, never
as a comma-joined value; for the fixed CFPS dictionary this yields the
`site` pair, one `alpha` pair per category in order, the `notam_choice`
pair and the cache-buster pair. -/
theorem query_params_repeated_pairs :
    (∀ ps : List (String × ParamValue),
        build_query_params ps = ps.flatMap expand_param) ∧
    (∀ icao : String,
        build_query_params (cfps_params icao) =
          ("site", icao) ::
            (cfps_categories.map fun c => ("alpha", c)) ++
              [("notam_choice", "default"), ("_", "1756244240291")]) := by
  constructor
  · have go : ∀ (ps : List (String × ParamValue)) (acc : List (String × String)),
        ps.foldl
          (fun acc kv =>
            match kv.2 with
            | .multi vs => acc ++ vs.map fun v => (kv.1, v)
            | .single v => acc ++ [(kv.1, v)])
          acc = acc ++ ps.flatMap expand_param := by
      intro ps
      induction ps with
      | nil => intro acc; simp
      | cons kv rest ih =>
        intro acc
        obtain ⟨k, v⟩ := kv
        cases v with
        | single w => simp [List.foldl_cons, ih, expand_param, List.append_assoc]
        | multi ws => simp [List.foldl_cons, ih, expand_param, List.append_assoc]
    intro ps
    exact go ps []
  · intro icao
    rfl

/-- C1 (amended).  For a NOTAM record whose `text` entry is a string `s`:
when `s` fails to decode as JSON the display text is `s` verbatim and the
failure is not propagated; when `s` decodes to an object, the display text
is the string value of its `raw` member, with the EMPTY STRING substituted
when `raw` is absent (the original claim said the original text is used in
that case, which `dict.get` with an empty-string default contradicts). -/
theorem notam_raw_extraction (n : Json) (s : String)
    (htext : pyGetItem n "text" = some (.str s)) :
    (json_loads s = none → notamDisplay n = some s) ∧
    (∀ kvs v, json_loads s = some (.obj kvs) → kvs.lookup "raw" = some (.str v) →
        notamDisplay n = some v) ∧
    (∀ kvs, json_loads s = some (.obj kvs) → kvs.lookup "raw" = none →
        notamDisplay n = some "") := by
  refine ⟨fun hp => ?_, fun kvs v hp hraw => ?_, fun kvs hp hraw => ?_⟩ <;>
    simp [notamDisplay, htext, hp, pyDictGet, Json.asStr, *]

/-- Witness for C1 at the two inputs of the specification example: a JSON
object with a `raw` member, and a non-JSON plain text. -/
theorem notam_raw_extraction_witness :
    notamDisplay (.obj (.cons "text" (.str "plain text") .nil)) = some "plain text" ∧
    notamDisplay
        (.obj (.cons "text" (.str "\x7b\"raw\":\"A1234/23 RWY CLOSED\"\x7d") .nil)) =
      some "A1234/23 RWY CLOSED" :=
  ⟨(notam_raw_extraction (.obj (.cons "text" (.str "plain text") .nil))
      "plain text" rfl).1 (by decide),
   (notam_raw_extraction
      (.obj (.cons "text" (.str "\x7b\"raw\":\"A1234/23 RWY CLOSED\"\x7d") .nil))
      "\x7b\"raw\":\"A1234/23 RWY CLOSED\"\x7d" rfl).2.1
     (.cons "raw" (.str "A1234/23 RWY CLOSED") .nil) "A1234/23 RWY CLOSED"
     (by decide) (by decide)⟩

/-- Counterexample to C1 as stated: the NOTAM text `"{}"` decodes to an
object with no `raw` member; the claim requires the original text `"{}"`
verbatim, but the code displays the empty string. -/
theorem notam_raw_empty_default :
    notamDisplay (.obj (.cons "text" (.str "\x7b\x7d") .nil)) = some "" ∧
    ("\x7b\x7d" : String) ≠ "" :=
  ⟨rfl, by decide⟩

/-- C9.  When a NOTAM record text decodes as JSON to a non-object value,
the `.get` lookup failure is swallowed and the original text is the
display text. -/
theorem notam_nonobject_fallback (n : Json) (s : String) (j : Json)
    (htext : pyGetItem n "text" = some (.str s))
    (hparse : json_loads s = some j) (hobj : j.isObj = false) :
    notamDisplay n = some s := by
  cases j <;> simp_all [notamDisplay, Json.isObj]

/-- Witness for C9: the NOTAM text `"3"` decodes to a JSON number and the
original text is displayed. -/
theorem notam_nonobject_fallback_witness :
    notamDisplay (.obj (.cons "text" (.str "3") .nil)) = some "3" :=
  notam_nonobject_fallback _ "3" (.num "3") rfl (by decide) (by decide)

/-- C3.  When every record of the `data` list carries a hashable `type`
entry (a list or dict value makes the program raise instead), the
bucketing succeeds, every record lands in a bucket whose key is
Python-equal to its `type` value (or that value itself, for the
self-unequal `NaN`), and the records across all buckets are a permutation
of the input: none dropped, none duplicated. -/
theorem organize_no_loss (items : List Json)
    (h : ∀ it ∈ items, hashable_type it = true) :
    ∃ org, organize items = some org ∧
      (∀ it ∈ items, ∃ k, pyGetItem it "type" = some k ∧
        ∃ kb b, (kb, b) ∈ org ∧ key_matches kb k = true ∧ it ∈ b) ∧
      ((org.map Prod.snd).flatten).Perm items := by
  cases horg : organize items with
  | none =>
    rw [organize, organizeGo_none_iff] at horg
    obtain ⟨it, hit, hbad⟩ := horg
    have := h it hit
    rw [this] at hbad
    exact absurd hbad (by simp)
  | some org =>
    exact ⟨org, rfl, organizeGo_mem_item items [] org horg,
      by simpa using organizeGo_perm items [] org horg⟩

/-- Witness for C3 at a three-record response with two report types. -/
theorem organize_no_loss_witness :
    (∀ it ∈ [Json.obj (.cons "type" (.str "metar") (.cons "text" (.str "M1") .nil)),
             Json.obj (.cons "type" (.str "taf") (.cons "text" (.str "T1") .nil)),
             Json.obj (.cons "type" (.str "metar") (.cons "text" (.str "M2") .nil))],
        ∃ k, pyGetItem it "type" = some k ∧
          ∃ kb b,
            (kb, b) ∈
              [(Json.str "metar",
                  [Json.obj (.cons "type" (.str "metar") (.cons "text" (.str "M1") .nil)),
                   Json.obj (.cons "type" (.str "metar") (.cons "text" (.str "M2") .nil))]),
               (Json.str "taf",
                  [Json.obj (.cons "type" (.str "taf") (.cons "text" (.str "T1") .nil))])] ∧
            key_matches kb k = true ∧ it ∈ b) ∧
    ((([(Json.str "metar",
           [Json.obj (.cons "type" (.str "metar") (.cons "text" (.str "M1") .nil)),
            Json.obj (.cons "type" (.str "metar") (.cons "text" (.str "M2") .nil))]),
        (Json.str "taf",
           [Json.obj (.cons "type" (.str "taf") (.cons "text" (.str "T1") .nil))])] :
          Organized).map Prod.snd).flatten).Perm
      [Json.obj (.cons "type" (.str "metar") (.cons "text" (.str "M1") .nil)),
       Json.obj (.cons "type" (.str "taf") (.cons "text" (.str "T1") .nil)),
       Json.obj (.cons "type" (.str "metar") (.cons "text" (.str "M2") .nil))] := by
  obtain ⟨org, h1, h2, h3⟩ := organize_no_loss
    [Json.obj (.cons "type" (.str "metar") (.cons "text" (.str "M1") .nil)),
     Json.obj (.cons "type" (.str "taf") (.cons "text" (.str "T1") .nil)),
     Json.obj (.cons "type" (.str "metar") (.cons "text" (.str "M2") .nil))]
    (by decide)
  have horg : org =
      [(Json.str "metar",
          [Json.obj (.cons "type" (.str "metar") (.cons "text" (.str "M1") .nil)),
           Json.obj (.cons "type" (.str "metar") (.cons "text" (.str "M2") .nil))]),
       (Json.str "taf",
          [Json.obj (.cons "type" (.str "taf") (.cons "text" (.str "T1") .nil))])] :=
    Option.some.inj (h1.symm.trans (by decide))
  subst horg
  exact ⟨h2, h3⟩

/-- C10.  Looking up any key in the organized mapping yields exactly the
response records whose `type` value is Python-equal to that key, in the
order they occur in the `data` list; in particular each category bucket
preserves the upstream record order, and `True`, `1` and `1.0` typed
records share one bucket. -/
theorem organize_bucket_order (items : List Json) (org : Organized) (k : Json)
    (h : organize items = some org) :
    bucketOf org k = items.filter (typed_as k) := by
  have hb := organizeGo_bucket items [] org h k
  simpa only [bucketOf, List.nil_append] using hb

/-- Witness for C10: a record typed `1` and a record typed `true` share
the bucket keyed by the first occurrence, in upstream order. -/
theorem organize_bucket_order_witness :
    bucketOf
        [(Json.num "1",
            [Json.obj (.cons "type" (.num "1") (.cons "text" (.str "a") .nil)),
             Json.obj (.cons "type" (.bool true) (.cons "text" (.str "b") .nil))])]
        (Json.num "1") =
      [Json.obj (.cons "type" (.num "1") (.cons "text" (.str "a") .nil)),
       Json.obj (.cons "type" (.bool true) (.cons "text" (.str "b") .nil))] :=
  (organize_bucket_order
    [Json.obj (.cons "type" (.num "1") (.cons "text" (.str "a") .nil)),
     Json.obj (.cons "type" (.bool true) (.cons "text" (.str "b") .nil))]
    [(Json.num "1",
        [Json.obj (.cons "type" (.num "1") (.cons "text" (.str "a") .nil)),
         Json.obj (.cons "type" (.bool true) (.cons "text" (.str "b") .nil))])]
    (Json.num "1") rfl).trans (by decide)

theorem extract_row_ICAO (icao : String) (data : Organized) (row : ResultRow)
    (h : extract_row icao data = some row) : row.ICAO = icao := by
  unfold extract_row at h
  simp only [bind, Option.bind_eq_some] at h
  obtain ⟨m, _, t, _, nt, _, hrow⟩ := h
  cases hrow
  rfl

theorem process_one_ICAO (responses : String → HttpResponse) (icao : String)
    (row : ResultRow) (h : process_one responses icao = .ok row) :
    row.ICAO = icao := by
  unfold process_one at h
  split at h
  · simp at h
  · rename_i data hget
    split at h
    · rename_i r hrow
      simp only [Except.ok.injEq] at h
      subst h
      exact extract_row_ICAO icao data r hrow
    · simp at h

theorem processBatch_go (responses : String → HttpResponse) :
    ∀ (codes : List String) (acc : List ResultRow × List String),
      codes.foldl
        (fun acc icao =>
          match process_one responses icao with
          | .ok row => (acc.1 ++ [row], acc.2)
          | .error w => (acc.1, acc.2 ++ [w]))
        acc =
      (acc.1 ++ codes.filterMap (success_row responses),
       acc.2 ++ codes.filterMap (failure_warning responses)) := by
  intro codes
  induction codes with
  | nil => intro acc; simp
  | cons c rest ih =>
    intro acc
    rw [List.foldl_cons]
    cases hp : process_one responses c with
    | ok row =>
      rw [ih]
      simp [List.filterMap_cons, success_row, failure_warning, hp, List.append_assoc]
    | error w =>
      rw [ih]
      simp [List.filterMap_cons, success_row, failure_warning, hp, List.append_assoc]

theorem filterMap_success_map_ICAO (responses : String → HttpResponse) :
    ∀ codes : List String,
      (codes.filterMap (success_row responses)).map ResultRow.ICAO =
        codes.filter (fun c => (success_row responses c).isSome) := by
  intro codes
  induction codes with
  | nil => rfl
  | cons c rest ih =>
    cases hp : success_row responses c with
    | none => simp [List.filterMap_cons, List.filter_cons, hp, ih]
    | some row =>
      have hok : process_one responses c = .ok row := by
        unfold success_row at hp
        cases hq : process_one responses c <;> rw [hq] at hp <;>
          simp only [Option.some.injEq] at hp
        · cases hp
        · exact hp ▸ rfl
      have hic := process_one_ICAO responses c row hok
      simp [List.filterMap_cons, List.filter_cons, hp, ih, hic]

/-- C2.  The batch loop processes each code independently: the rows are
exactly the successful codes' rows in input order (failed codes omitted),
the warnings are exactly the failed codes' warnings in input order, and
the row sequence names the successful codes in input order. -/
theorem processBatch_partial_results (responses : String → HttpResponse)
    (codes : List String) :
    (processBatch responses codes).1 = codes.filterMap (success_row responses) ∧
    (processBatch responses codes).2 = codes.filterMap (failure_warning responses) ∧
    (processBatch responses codes).1.map ResultRow.ICAO =
      codes.filter (fun c => (success_row responses c).isSome) := by
  unfold processBatch
  rw [processBatch_go]
  exact ⟨by simp, by simp, by simpa using filterMap_success_map_ICAO responses codes⟩

/-- C5 (amended).  `get_cfps_data` fails with a `requestError` exactly when
the HTTP status indicates failure; it fails with a `parseError` exactly
when the body is not valid JSON, or subscripting it with `data` raises (no
object with a `data` member), or the `data` value is not iterable, or some
iterated element has no hashable `type` entry (missing `type`, or a
list/dict `type` value that raises `TypeError` as a dictionary key); on
success the result is the organized mapping.  (The original claim required
failure whenever a top-level `data` LIST is missing, but iteration accepts
any iterable: an empty string or empty object under `data` is accepted and
yields the empty mapping.) -/
theorem get_cfps_data_outcomes (resp : HttpResponse) :
    (get_cfps_data resp = .error .requestError ↔ resp.ok = false) ∧
    (get_cfps_data resp = .error .parseError ↔
       resp.ok = true ∧
         (resp.body = none ∨
          ∃ b, resp.body = some b ∧
            (pyGetItem b "data" = none ∨
             ∃ d, pyGetItem b "data" = some d ∧
               (pyIter d = none ∨
                ∃ items, pyIter d = some items ∧
                  ∃ it ∈ items, hashable_type it = false)))) ∧
    (∀ org, get_cfps_data resp = .ok org →
       resp.ok = true ∧
         ∃ b d items, resp.body = some b ∧ pyGetItem b "data" = some d ∧
           pyIter d = some items ∧ organize items = some org) := by
  obtain ⟨ok, body⟩ := resp
  cases ok
  · simp [get_cfps_data]
  · cases body with
    | none => simp [get_cfps_data]
    | some b =>
      cases hgi : pyGetItem b "data" with
      | none => simp [get_cfps_data, hgi]
      | some d =>
        cases hit : pyIter d with
        | none => simp [get_cfps_data, hgi, hit]
        | some items =>
          cases horg : organize items with
          | none =>
            have hbad := (organizeGo_none_iff items []).mp horg
            simp [get_cfps_data, hgi, hit, horg, hbad]
          | some org =>
            have hgood : ¬∃ it ∈ items, hashable_type it = false := by
              rw [← organizeGo_none_iff items []]
              simp [organize] at horg
              simp [horg]
            simp [get_cfps_data, hgi, hit, horg, hgood]

/-- Witness for C5 at a response whose body is `\x7b"data": []\x7d`. -/
theorem get_cfps_data_outcomes_witness :
    (HttpResponse.mk true (some (.obj (.cons "data" (.arr .nil) .nil)))).ok = true ∧
    ∃ b d items,
      (HttpResponse.mk true (some (.obj (.cons "data" (.arr .nil) .nil)))).body = some b ∧
      pyGetItem b "data" = some d ∧ pyIter d = some items ∧
      organize items = some [] :=
  (get_cfps_data_outcomes
    (HttpResponse.mk true (some (.obj (.cons "data" (.arr .nil) .nil))))).2.2 [] rfl

/-- Counterexample to C5 as stated: the body `\x7b"data": ""\x7d` has no
top-level `data` list (its `data` value is a string), yet `get_cfps_data`
succeeds with the empty mapping, because iterating the empty string yields
nothing. -/
theorem get_cfps_data_accepts_nonlist :
    get_cfps_data
        (HttpResponse.mk true (some (.obj (.cons "data" (.str "") .nil)))) = .ok [] ∧
    pyGetItem (.obj (.cons "data" (.str "") .nil)) "data" = some (.str "") ∧
    (Json.str "").isArr = false :=
  ⟨rfl, rfl, rfl⟩

/-- C6 (amended).  A category absent from the organized mapping yields the
empty display text and never an error; a present METAR/TAF-style category
yields its records' `text` fields joined by a newline; a present NOTAM
category yields its records' DISPLAY texts (the `raw`-extracted form, not
the verbatim `text` fields as the original claim said) joined by a blank
line. -/
theorem extract_text_categories (org : Organized) :
    (∀ key : String, Json.str key ∉ org.map Prod.fst →
        join_newline (bucketOf org (.str key)) = some "") ∧
    (Json.str "notam" ∉ org.map Prod.fst →
        notam_join (bucketOf org (.str "notam")) = some "") ∧
    (∀ key ts, (bucketOf org (.str key)).mapM text_of_record = some ts →
        join_newline (bucketOf org (.str key)) = some (String.intercalate "\n" ts)) ∧
    (∀ ds, (bucketOf org (.str "notam")).mapM notamDisplay = some ds →
        notam_join (bucketOf org (.str "notam")) = some (String.intercalate "\n\n" ds)) := by
  refine ⟨fun key h => ?_, fun h => ?_, fun key ts h => ?_, fun ds h => ?_⟩
  · rw [bucketOf_str_eq_nil_of_not_mem org _ h]; rfl
  · rw [bucketOf_str_eq_nil_of_not_mem org _ h]; rfl
  · unfold join_newline; rw [h]; rfl
  · unfold notam_join; rw [h]; rfl

/-- Witness for C6: absent TAF and NOTAM categories give empty text, the
present METAR category gives its joined text fields. -/
theorem extract_text_categories_witness :
    join_newline
        (bucketOf
          [(Json.str "metar",
              [Json.obj (.cons "type" (.str "metar") (.cons "text" (.str "M1") .nil))])]
          (.str "taf")) = some "" ∧
    notam_join
        (bucketOf
          [(Json.str "metar",
              [Json.obj (.cons "type" (.str "metar") (.cons "text" (.str "M1") .nil))])]
          (.str "notam")) = some "" ∧
    join_newline
        (bucketOf
          [(Json.str "metar",
              [Json.obj (.cons "type" (.str "metar") (.cons "text" (.str "M1") .nil))])]
          (.str "metar")) = some (String.intercalate "\n" ["M1"]) :=
  ⟨(extract_text_categories _).1 "taf" (by decide),
   (extract_text_categories _).2.1 (by decide),
   (extract_text_categories _).2.2.1 "metar" ["M1"] (by decide)⟩

/-- Counterexample to C6 as stated: for a present NOTAM category the code
does not join the records' `text` fields — a NOTAM whose text is a JSON
object displays its `raw` member instead. -/
theorem notam_join_transforms_text :
    notam_join [Json.obj (.cons "text" (.str "\x7b\"raw\":\"X\"\x7d") .nil)] = some "X" ∧
    text_of_record (Json.obj (.cons "text" (.str "\x7b\"raw\":\"X\"\x7d") .nil)) =
      some "\x7b\"raw\":\"X\"\x7d" ∧
    ("X" : String) ≠ "\x7b\"raw\":\"X\"\x7d" :=
  ⟨rfl, rfl, by decide⟩

/-- C7.  The processing list is the upper-cased (and stripped) direct
input, when non-empty, followed by the upper-cased non-missing cells of
the uploaded `ICAO` column in order; no error is reported and no
deduplication happens: element counts add up. -/
theorem icao_list_merge (raw : String) (df : DataTable) (col : List (Option String))
    (h : df.lookup "ICAO" = some col) :
    (build_icao_list raw (some df)).1 =
        (build_icao_list raw none).1 ++ (col.filterMap id).map py_upper ∧
    (build_icao_list raw (some df)).2 = [] ∧
    (∀ s : String, ((build_icao_list raw (some df)).1).count s =
        ((build_icao_list raw none).1).count s +
          ((col.filterMap id).map py_upper).count s) := by
  simp [build_icao_list, h, List.count_append]

/-- Witness for C7: direct input ` cyvr ` plus an upload whose `ICAO`
column holds `cyyc`, a missing cell, and `cyyc` again; the duplicate
survives with multiplicity two. -/
theorem icao_list_merge_witness :
    (build_icao_list " cyvr "
        (some [("ICAO", [some "cyyc", none, some "cyyc"])])).1 =
      ["CYVR", "CYYC", "CYYC"] ∧
    ((build_icao_list " cyvr "
        (some [("ICAO", [some "cyyc", none, some "cyyc"])])).1).count "CYYC" = 2 := by
  have h := icao_list_merge " cyvr " [("ICAO", [some "cyyc", none, some "cyyc"])]
    [some "cyyc", none, some "cyyc"] rfl
  exact ⟨h.1.trans (by decide), (h.2.2 "CYYC").trans (by decide)⟩

/-- C8.  When the uploaded table has no `ICAO` column, exactly one error is
reported, the upload contributes no codes, and the run is not aborted: the
processing list, and hence the whole batch, is the one the direct input
alone produces. -/
theorem icao_list_missing_column (raw : String) (df : DataTable)
    (h : df.lookup "ICAO" = none) :
    (build_icao_list raw (some df)).1 = (build_icao_list raw none).1 ∧
    (build_icao_list raw (some df)).2 =
      ["Uploaded file must have a column named ICAO"] ∧
    (∀ responses : String → HttpResponse,
        processBatch responses (build_icao_list raw (some df)).1 =
          processBatch responses (build_icao_list raw none).1) := by
  simp [build_icao_list, h]

/-- Witness for C8: a table with only a `Code` column; the direct input
`cyvr` is still processed. -/
theorem icao_list_missing_column_witness :
    (build_icao_list "cyvr" (some [("Code", [some "cyyc"])])).1 =
      (build_icao_list "cyvr" none).1 ∧
    (build_icao_list "cyvr" (some [("Code", [some "cyyc"])])).2 =
      ["Uploaded file must have a column named ICAO"] :=
  ⟨(icao_list_missing_column "cyvr" [("Code", [some "cyyc"])] rfl).1,
   (icao_list_missing_column "cyvr" [("Code", [some "cyyc"])] rfl).2.1⟩

end CFPS
